import Mathlib

/-!
# Verification of the catenary solver (`src/cat.tsx` and the app file)

The repository computes parameters `(a, b, c)` of a catenary
`y = a * cosh((x - b) / a) + c` through two points with a prescribed arc
length.  Numbers in the source are JavaScript IEEE doubles; we model them as
exact rationals extended with `Infinity`, `-Infinity` and `NaN` (`JSNum`),
so the special-value propagation of the source is captured faithfully while
arithmetic on finite values is exact.  The transcendental primitives
(`Math.sqrt`, `Math.cosh`, `Math.sinh`, `Math.acosh`, `Math.log`, `Math.PI`)
have no exact rational counterpart; they are supplied as an explicit
parameter structure `MathOps`, with the JavaScript special-value behaviour
(e.g. `Math.acosh` of an argument below `1` is `NaN`) fixed by wrapper
functions.  All solver definitions are computable and parametric in the
`MathOps` instance.
-/

/-- Model of a JavaScript number: an exact rational, `Infinity`,
`-Infinity`, or `NaN`.  (`-0` is not distinguished from `0`; in the code
under verification a zero divisor only arises as `x - x`, which is `+0` in
JavaScript.) -/
inductive JSNum where
  | fin (q : ℚ)
  | posInf
  | negInf
  | nan
deriving DecidableEq

open JSNum

/-- JavaScript addition on the number model. -/
def addJS : JSNum → JSNum → JSNum
  | nan, _ => nan
  | _, nan => nan
  | fin a, fin b => fin (a + b)
  | posInf, negInf => nan
  | negInf, posInf => nan
  | posInf, _ => posInf
  | _, posInf => posInf
  | negInf, _ => negInf
  | _, negInf => negInf

/-- JavaScript unary minus on the number model. -/
def negJS : JSNum → JSNum
  | fin a => fin (-a)
  | posInf => negInf
  | negInf => posInf
  | nan => nan

/-- JavaScript subtraction on the number model. -/
def subJS (x y : JSNum) : JSNum := addJS x (negJS y)

/-- JavaScript multiplication on the number model. -/
def mulJS : JSNum → JSNum → JSNum
  | nan, _ => nan
  | _, nan => nan
  | fin a, fin b => fin (a * b)
  | fin a, posInf => if a = 0 then nan else if 0 < a then posInf else negInf
  | fin a, negInf => if a = 0 then nan else if 0 < a then negInf else posInf
  | posInf, fin b => if b = 0 then nan else if 0 < b then posInf else negInf
  | negInf, fin b => if b = 0 then nan else if 0 < b then negInf else posInf
  | posInf, posInf => posInf
  | posInf, negInf => negInf
  | negInf, posInf => negInf
  | negInf, negInf => posInf

/-- JavaScript division on the number model (a zero divisor is `+0`). -/
def divJS : JSNum → JSNum → JSNum
  | nan, _ => nan
  | _, nan => nan
  | fin a, fin b =>
      if b = 0 then (if a = 0 then nan else if 0 < a then posInf else negInf)
      else fin (a / b)
  | fin _, posInf => fin 0
  | fin _, negInf => fin 0
  | posInf, fin b => if 0 ≤ b then posInf else negInf
  | negInf, fin b => if 0 ≤ b then negInf else posInf
  | _, _ => nan

/-- JavaScript strict `<` (false whenever either side is `NaN`). -/
def ltB : JSNum → JSNum → Bool
  | nan, _ => false
  | _, nan => false
  | fin a, fin b => decide (a < b)
  | fin _, posInf => true
  | posInf, _ => false
  | negInf, negInf => false
  | negInf, _ => true
  | _, negInf => false

/-- JavaScript `<=` (false whenever either side is `NaN`). -/
def leB : JSNum → JSNum → Bool
  | nan, _ => false
  | _, nan => false
  | fin a, fin b => decide (a ≤ b)
  | fin _, posInf => true
  | fin _, negInf => false
  | posInf, posInf => true
  | posInf, _ => false
  | negInf, _ => true

/-- JavaScript `>`: `x > y` is `y < x`. -/
def gtB (x y : JSNum) : Bool := ltB y x

/-- JavaScript `===` on numbers (`NaN === NaN` is false). -/
def eqB : JSNum → JSNum → Bool
  | nan, _ => false
  | _, nan => false
  | fin a, fin b => decide (a = b)
  | posInf, posInf => true
  | negInf, negInf => true
  | _, _ => false

/-- `Math.abs`. -/
def absJS : JSNum → JSNum
  | fin a => fin |a|
  | posInf => posInf
  | negInf => posInf
  | nan => nan

/-- JavaScript `isFinite`. -/
def isFiniteJS : JSNum → Bool
  | fin _ => true
  | _ => false

/-- The transcendental primitives used by the source, abstract on finite
arguments.  Their IEEE behaviour on special values and outside their real
domains is imposed by the wrapper functions below, not by this structure. -/
structure MathOps where
  sqrt : ℚ → ℚ
  cosh : ℚ → ℚ
  sinh : ℚ → ℚ
  acosh : ℚ → ℚ
  log : ℚ → ℚ
  pi : ℚ

/-- `Math.sqrt`: `NaN` below zero, `Infinity` at `Infinity`. -/
def sqrtJS (ops : MathOps) : JSNum → JSNum
  | fin q => if q < 0 then nan else fin (ops.sqrt q)
  | posInf => posInf
  | negInf => nan
  | nan => nan

/-- `Math.cosh`: `Infinity` at both infinities. -/
def coshJS (ops : MathOps) : JSNum → JSNum
  | fin q => fin (ops.cosh q)
  | posInf => posInf
  | negInf => posInf
  | nan => nan

/-- `Math.sinh`. -/
def sinhJS (ops : MathOps) : JSNum → JSNum
  | fin q => fin (ops.sinh q)
  | posInf => posInf
  | negInf => negInf
  | nan => nan

/-- `Math.acosh`: `NaN` below `1`, `Infinity` at `Infinity`. -/
def acoshJS (ops : MathOps) : JSNum → JSNum
  | fin q => if q < 1 then nan else fin (ops.acosh q)
  | posInf => posInf
  | negInf => nan
  | nan => nan

/-- `Math.log`: `NaN` below zero, `-Infinity` at zero. -/
def logJS (ops : MathOps) : JSNum → JSNum
  | fin q => if q < 0 then nan else if q = 0 then negInf else fin (ops.log q)
  | posInf => posInf
  | negInf => nan
  | nan => nan

/-- Parameter / residual triples `[a, b, c]` (also used for residual vectors
and Newton steps). -/
abbrev Vec3 := JSNum × JSNum × JSNum

/-- The fixed data of one solve call of `solveCatenary` in `src/cat.tsx`:
the destructured endpoints and the requested arc length, captured by the
closures `equations`, `jacobian` and `newtonRaphson`. -/
structure SolveCtx where
  x1 : JSNum
  y1 : JSNum
  x2 : JSNum
  y2 : JSNum
  s : JSNum
deriving DecidableEq

/-- Iteration tolerance `1e-10` of `newtonRaphson`. -/
def tol10 : ℚ := 1 / 10000000000

/-- Acceptance (verification) threshold `1e-6` of the driver loop. -/
def accTol : ℚ := 1 / 1000000

namespace Cat

/-- `equations` of `src/cat.tsx` (lines 30-48): the residual vector of the
three governing equations, with the `[Infinity, Infinity, Infinity]`
sentinel for `a <= 0`. -/
def equations (ops : MathOps) (ctx : SolveCtx) (params : Vec3) : Vec3 :=
  let a := params.1
  let b := params.2.1
  let c := params.2.2
  if leB a (fin 0) then (posInf, posInf, posInf)
  else
    let arg1 := divJS (subJS ctx.x1 b) a
    let arg2 := divJS (subJS ctx.x2 b) a
    let cosh1 := coshJS ops arg1
    let cosh2 := coshJS ops arg2
    let sinh1 := sinhJS ops arg1
    let sinh2 := sinhJS ops arg2
    (subJS (addJS (mulJS a cosh1) c) ctx.y1,
     subJS (addJS (mulJS a cosh2) c) ctx.y2,
     subJS (mulJS a (subJS sinh2 sinh1)) ctx.s)

/-- `jacobian` of `src/cat.tsx` (lines 51-82): analytic Jacobian rows, the
zero matrix for `a <= 0`. -/
def jacobian (ops : MathOps) (ctx : SolveCtx) (params : Vec3) :
    Vec3 × Vec3 × Vec3 :=
  let a := params.1
  let b := params.2.1
  if leB a (fin 0) then
    ((fin 0, fin 0, fin 0), (fin 0, fin 0, fin 0), (fin 0, fin 0, fin 0))
  else
    let arg1 := divJS (subJS ctx.x1 b) a
    let arg2 := divJS (subJS ctx.x2 b) a
    let cosh1 := coshJS ops arg1
    let cosh2 := coshJS ops arg2
    let sinh1 := sinhJS ops arg1
    let sinh2 := sinhJS ops arg2
    ((subJS cosh1 (mulJS arg1 sinh1), sinh1, fin 1),
     (subJS cosh2 (mulJS arg2 sinh2), sinh2, fin 1),
     (subJS (subJS sinh2 sinh1) (subJS (mulJS arg2 cosh2) (mulJS arg1 cosh1)),
      subJS cosh1 cosh2, fin 0))

/-- Euclidean norm `Math.sqrt(v0*v0 + v1*v1 + v2*v2)` of a residual vector,
as computed (left-associated) at lines 131, 154 and 202 of `src/cat.tsx`. -/
def norm3 (ops : MathOps) (v : Vec3) : JSNum :=
  sqrtJS ops (addJS (addJS (mulJS v.1 v.1) (mulJS v.2.1 v.2.1)) (mulJS v.2.2 v.2.2))

/-- One augmented row of the 3x4 Gaussian-elimination tableau. -/
structure Row4 where
  a0 : JSNum
  a1 : JSNum
  a2 : JSNum
  rhs : JSNum
deriving DecidableEq

/-- Build an augmented row from a matrix row and its right-hand side. -/
def mkRow (r : Vec3) (bi : JSNum) : Row4 := ⟨r.1, r.2.1, r.2.2, bi⟩

/-- Partial-pivot row selection for column 0 (lines 92-98 with `i = 0`):
the row with the strictly largest `|entry|` in column 0 is swapped into
position 0, ties keeping the earlier row. -/
def pivot0 (r0 r1 r2 : Row4) : Row4 × Row4 × Row4 :=
  if gtB (absJS r1.a0) (absJS r0.a0) then
    (if gtB (absJS r2.a0) (absJS r1.a0) then (r2, r1, r0) else (r1, r0, r2))
  else
    (if gtB (absJS r2.a0) (absJS r0.a0) then (r2, r1, r0) else (r0, r1, r2))

/-- Partial-pivot row selection for column 1 (lines 92-98 with `i = 1`). -/
def pivot1 (r1 r2 : Row4) : Row4 × Row4 :=
  if gtB (absJS r2.a1) (absJS r1.a1) then (r2, r1) else (r1, r2)

/-- Elimination of row `k` below pivot row `p` at column 0
(lines 101-106, `i = 0`): `k[j] -= (k[0]/p[0]) * p[j]` for `j = 0..3`.
Note there is no zero-pivot check: a zero pivot simply divides. -/
def elimRow0 (p k : Row4) : Row4 :=
  let f := divJS k.a0 p.a0
  ⟨subJS k.a0 (mulJS f p.a0), subJS k.a1 (mulJS f p.a1),
   subJS k.a2 (mulJS f p.a2), subJS k.rhs (mulJS f p.rhs)⟩

/-- Elimination of row `k` below pivot row `p` at column 1
(lines 101-106, `i = 1`): columns `1..3` updated, column 0 untouched. -/
def elimRow1 (p k : Row4) : Row4 :=
  let f := divJS k.a1 p.a1
  ⟨k.a0, subJS k.a1 (mulJS f p.a1),
   subJS k.a2 (mulJS f p.a2), subJS k.rhs (mulJS f p.rhs)⟩

/-- `solveLinearSystem` of `src/cat.tsx` (lines 85-120): 3x3 Gaussian
elimination with partial pivoting and back substitution, unrolled for
`n = 3`.  The source contains no singularity check and no `throw`: it is a
total function, and a zero pivot flows into `divJS` (producing `NaN` /
`Infinity` junk exactly as the JavaScript does). -/
def solveLinearSystem (A : Vec3 × Vec3 × Vec3) (b : Vec3) : Vec3 :=
  let r0 := mkRow A.1 b.1
  let r1 := mkRow A.2.1 b.2.1
  let r2 := mkRow A.2.2 b.2.2
  let pr := pivot0 r0 r1 r2
  let p0 := pr.1
  let e1 := elimRow0 p0 pr.2.1
  let e2 := elimRow0 p0 pr.2.2
  let sr := pivot1 e1 e2
  let s1 := sr.1
  let t2 := elimRow1 s1 sr.2
  let x2 := divJS t2.rhs t2.a2
  let x1 := divJS (subJS s1.rhs (mulJS s1.a2 x2)) s1.a1
  let x0 := divJS (subJS (subJS p0.rhs (mulJS p0.a1 x1)) (mulJS p0.a2 x2)) p0.a0
  (x0, x1, x2)

/-- Componentwise `params + stepSize * delta` (lines 145-149). -/
def stepVec (params : Vec3) (step : JSNum) (delta : Vec3) : Vec3 :=
  (addJS params.1 (mulJS step delta.1),
   addJS params.2.1 (mulJS step delta.2.1),
   addJS params.2.2 (mulJS step delta.2.2))

/-- The backtracking line-search loop of `newtonRaphson`
(lines 141-162): `fuel` counts the remaining of the 10 attempts, `ls` is
the current attempt index, `step` the current step size.  A candidate is
accepted when its `a` stays positive and either its residual norm strictly
decreases or this is attempt `ls = 9`; otherwise the step is halved.  If
all 10 attempts fail the `a > 0` guard, `params` is returned unchanged. -/
def lsGo (ops : MathOps) (ctx : SolveCtx) (params delta : Vec3)
    (residual : JSNum) : Nat → Nat → JSNum → Vec3
  | 0, _, _ => params
  | fuel + 1, ls, step =>
    let newParams := stepVec params step delta
    if gtB newParams.1 (fin 0) &&
        (ltB (norm3 ops (equations ops ctx newParams)) residual || ls == 9) then
      newParams
    else
      lsGo ops ctx params delta residual fuel (ls + 1) (mulJS step (fin (1 / 2)))

/-- The full line search: step size starts at `1.0`, at most 10 attempts. -/
def lineSearch (ops : MathOps) (ctx : SolveCtx) (params delta : Vec3)
    (residual : JSNum) : Vec3 :=
  lsGo ops ctx params delta residual 10 0 (fin 1)

/-- The iteration loop of `newtonRaphson` (lines 123-170), with `fuel`
the remaining iterations out of `maxIter = 100`.  Each pass evaluates the
residual, returns the parameters when its norm is below `1e-10`, and
otherwise solves `J * delta = -f` and applies the line search.  The
`try`/`catch` of the source is omitted: no expression inside it can throw
(array accesses are in range and JavaScript arithmetic is total), so the
`catch { return null }` branch is unreachable. -/
def nrGo (ops : MathOps) (ctx : SolveCtx) : Nat → Vec3 → Option Vec3
  | 0, _ => none
  | fuel + 1, params =>
    let f := equations ops ctx params
    let residual := norm3 ops f
    if ltB residual (fin tol10) then some params
    else
      let J := jacobian ops ctx params
      let delta := solveLinearSystem J (negJS f.1, negJS f.2.1, negJS f.2.2)
      nrGo ops ctx fuel (lineSearch ops ctx params delta residual)

/-- `newtonRaphson` of `src/cat.tsx` with its default arguments
(`maxIter = 100`, `tolerance = 1e-10`); `none` models the `null` result. -/
def newtonRaphson (ops : MathOps) (ctx : SolveCtx) (initialGuess : Vec3) :
    Option Vec3 :=
  nrGo ops ctx 100 initialGuess

/-- The raw closed-form seed `s / (2 * Math.sinh(dx / (2 * s / Math.PI)))`
for `a` (line 181). -/
def estimatedA0 (ops : MathOps) (ctx : SolveCtx) : JSNum :=
  divJS ctx.s
    (mulJS (fin 2)
      (sinhJS ops
        (divJS (subJS ctx.x2 ctx.x1) (divJS (mulJS (fin 2) ctx.s) (fin ops.pi)))))

/-- The estimate for `a` after the fallback of lines 182-184: `s / 4`
whenever the raw estimate is non-finite or non-positive. -/
def estimatedA (ops : MathOps) (ctx : SolveCtx) : JSNum :=
  let e := estimatedA0 ops ctx
  if !isFiniteJS e || leB e (fin 0) then divJS ctx.s (fin 4) else e

/-- The initial-guess list of `solveCatenary` (lines 172-194): the
symmetric guess `[estimatedA, midX, midY - estimatedA]`, then for each
`aFactor` in `[0.5, 1.5, 2.0, 3.0]` the guesses with `b` at the midpoint
and at `midX ± dx * 0.1`. -/
def initialGuesses (ops : MathOps) (ctx : SolveCtx) : List Vec3 :=
  let midX := divJS (addJS ctx.x1 ctx.x2) (fin 2)
  let midY := divJS (addJS ctx.y1 ctx.y2) (fin 2)
  let dx := subJS ctx.x2 ctx.x1
  let eA := estimatedA ops ctx
  (eA, midX, subJS midY eA) ::
    ([(1 : ℚ) / 2, 3 / 2, 2, 3].flatMap fun aFactor =>
      let a := mulJS eA (fin aFactor)
      [(a, midX, subJS midY a),
       (a, addJS midX (mulJS dx (fin (1 / 10))), subJS midY a),
       (a, subJS midX (mulJS dx (fin (1 / 10))), subJS midY a)])

/-- The driver loop over the guesses (lines 197-212): run `newtonRaphson`
on each guess in order; return the first result that is non-null, has
`a > 0` and re-verifies with residual norm below `1e-6`; `none` models the
final `return null`. -/
def tryGuesses (ops : MathOps) (ctx : SolveCtx) : List Vec3 → Option Vec3
  | [] => none
  | g :: gs =>
    match newtonRaphson ops ctx g with
    | some r =>
        if gtB r.1 (fin 0) &&
            ltB (norm3 ops (equations ops ctx r)) (fin accTol) then some r
        else tryGuesses ops ctx gs
    | none => tryGuesses ops ctx gs

/-- The validation errors thrown by `solveCatenary` (lines 16-23);
`arcTooShort` carries the computed minimum arc length reported in the
message. -/
inductive SolveError where
  | invalidArcLength
  | degenerateInput
  | arcTooShort (minArcLength : JSNum)
deriving DecidableEq

/-- The straight-line distance `Math.sqrt((x2-x1)**2 + (y2-y1)**2)`
computed at line 20. -/
def minArcJS (ops : MathOps) (pts : (JSNum × JSNum) × (JSNum × JSNum)) : JSNum :=
  sqrtJS ops
    (addJS (mulJS (subJS pts.2.1 pts.1.1) (subJS pts.2.1 pts.1.1))
      (mulJS (subJS pts.2.2 pts.1.2) (subJS pts.2.2 pts.1.2)))

/-- The solve context obtained by destructuring the arguments (line 13). -/
def mkCtx (pts : (JSNum × JSNum) × (JSNum × JSNum)) (s : JSNum) : SolveCtx :=
  ⟨pts.1.1, pts.1.2, pts.2.1, pts.2.2, s⟩

/-- `solveCatenary` of `src/cat.tsx` (lines 9-215).  A thrown validation
error is modelled as `Except.error`, the `null` no-solution result as
`Except.ok none`, and a returned `{a, b, c}` as `Except.ok (some params)`. -/
def solveCatenary (ops : MathOps) (pts : (JSNum × JSNum) × (JSNum × JSNum))
    (s : JSNum) : Except SolveError (Option Vec3) :=
  if leB s (fin 0) then .error .invalidArcLength
  else if eqB pts.1.1 pts.2.1 then .error .degenerateInput
  else if ltB s (minArcJS ops pts) then .error (.arcTooShort (minArcJS ops pts))
  else
    let ctx := mkCtx pts s
    .ok (tryGuesses ops ctx (initialGuesses ops ctx))

end Cat

attribute [local semireducible] Rat.mul Rat.add Rat.sub Rat.inv Rat.ofScientific

/-- Decidable equality for `Except`, needed to evaluate solver results on
concrete inputs. -/
instance {ε α : Type} [DecidableEq ε] [DecidableEq α] : DecidableEq (Except ε α)
  | .error e, .error f =>
      if h : e = f then isTrue (congrArg Except.error h)
      else isFalse fun hc => h (by cases hc; rfl)
  | .error _, .ok _ => isFalse fun hc => Except.noConfusion hc
  | .ok _, .error _ => isFalse fun hc => Except.noConfusion hc
  | .ok a, .ok b =>
      if h : a = b then isTrue (congrArg Except.ok h)
      else isFalse fun hc => h (by cases hc; rfl)

/-- A concrete, fully computable `MathOps` instance used to evaluate the
solver on explicit inputs.  Its fields need not approximate the real
functions: the structural theorems below hold for every instance, and the
concrete evaluations only witness reachable control-flow paths. -/
def ops0 : MathOps :=
  { sqrt := fun _ => 0
    cosh := fun _ => 1
    sinh := fun q => q
    acosh := fun _ => 0
    log := fun _ => 0
    pi := 1 }

/-- Convergence threshold `TOO_SMALL = 1e-6` of the fixed-point solver in
the app file. -/
def tooSmall : ℚ := 1 / 1000000

namespace App

/-- The fixed-point iteration of the app-file `solveCatenary`
(lines 148-151): while fewer than 100 steps have run and
`Math.abs(x - prevx) > TOO_SMALL`, update
`x := x - (Math.sinh(x) - m * x) / (Math.cosh(x) - m)`. -/
def fpLoop (ops : MathOps) (m : JSNum) : Nat → JSNum → JSNum → JSNum
  | 0, x, _ => x
  | fuel + 1, x, prevx =>
    if gtB (absJS (subJS x prevx)) (fin tooSmall) then
      fpLoop ops m fuel
        (subJS x (divJS (subJS (sinhJS ops x) (mulJS m x)) (subJS (coshJS ops x) m)))
        x
    else x

/-- `solveCatenary` of the app file (lines 132-163): the specialized
fixed-point formulation.  It performs no input validation, contains no
`throw`, and always returns a parameter object `{a, b, c}`; infeasible
inputs flow through the IEEE special values instead. -/
def solveCatenary (ops : MathOps) (pts : (JSNum × JSNum) × (JSNum × JSNum))
    (s : JSNum) : Vec3 :=
  let x1 := pts.1.1
  let y1 := pts.1.2
  let x2 := pts.2.1
  let y2 := pts.2.2
  let h := subJS x2 x1
  let v := subJS y2 y1
  let m := divJS (sqrtJS ops (subJS (mulJS s s) (mulJS v v))) h
  let x := fpLoop ops m 100 (addJS (acoshJS ops m) (fin 1)) (fin (-1))
  let a := divJS h (mulJS (fin 2) x)
  let offsetX :=
    subJS x1
      (mulJS (subJS (mulJS a (logJS ops (divJS (addJS s v) (subJS s v)))) h)
        (fin (1 / 2)))
  let offsetY := subJS y1 (mulJS a (coshJS ops (divJS (subJS x1 offsetX) a)))
  (a, offsetX, offsetY)

/-- `sortX` of the app file (lines 165-169): sort the two points by
ascending x-coordinate.  `Array.prototype.sort` with the comparator
`(a, b) => a[0] - b[0]` swaps the pair exactly when the comparator result
is positive (a `NaN` comparator result leaves the order unchanged). -/
def sortX (p : (JSNum × JSNum) × (JSNum × JSNum)) :
    (JSNum × JSNum) × (JSNum × JSNum) :=
  if gtB (subJS p.1.1 p.2.1) (fin 0) then (p.2, p.1) else p

end App

/-- The per-guess attempt as the specification words it: run the Newton
iteration to completion and keep the converged result exactly when it
re-verifies with residual norm below the acceptance threshold `1e-6`. -/
def claimAttempt (ops : MathOps) (ctx : SolveCtx) (g : Vec3) : Option Vec3 :=
  match Cat.newtonRaphson ops ctx g with
  | some r =>
      if ltB (Cat.norm3 ops (Cat.equations ops ctx r)) (fin accTol) then some r
      else none
  | none => none

/-- Claim C2 read literally: each validation error occurs if and only if
its own condition holds, with no regard to the order of the checks. -/
abbrev claimC2 (ops : MathOps) (pts : (JSNum × JSNum) × (JSNum × JSNum))
    (s : JSNum) : Prop :=
  (Cat.solveCatenary ops pts s = .error .invalidArcLength ↔
    leB s (fin 0) = true) ∧
  (Cat.solveCatenary ops pts s = .error .degenerateInput ↔
    eqB pts.1.1 pts.2.1 = true) ∧
  (Cat.solveCatenary ops pts s = .error (.arcTooShort (Cat.minArcJS ops pts)) ↔
    ltB s (Cat.minArcJS ops pts) = true)

/-- The guess list exactly as claim C8 words it: the symmetric guess
followed by variants for every factor in {0.5, 1.0, 1.5, 2.0, 3.0}, each
combined with the unshifted midpoint and the two 10%-offset values of `b`. -/
def claimGuesses (ops : MathOps) (ctx : SolveCtx) : List Vec3 :=
  let midX := divJS (addJS ctx.x1 ctx.x2) (fin 2)
  let midY := divJS (addJS ctx.y1 ctx.y2) (fin 2)
  let dx := subJS ctx.x2 ctx.x1
  let eA := Cat.estimatedA ops ctx
  (eA, midX, subJS midY eA) ::
    ([(1 : ℚ) / 2, 1, 3 / 2, 2, 3].flatMap fun aFactor =>
      let a := mulJS eA (fin aFactor)
      [(a, midX, subJS midY a),
       (a, addJS midX (mulJS dx (fin (1 / 10))), subJS midY a),
       (a, subJS midX (mulJS dx (fin (1 / 10))), subJS midY a)])

/-- The candidate of line-search attempt `ls`: the parameters stepped by
`delta` scaled with step size `(1/2)^ls` (step size `1.0` at the first
attempt, halved between attempts). -/
def lsCand (params delta : Vec3) (ls : Nat) : Vec3 :=
  Cat.stepVec params (fin ((1 / 2 : ℚ) ^ ls)) delta

/-- The acceptance condition of the line search for attempt `ls`: the
updated parameter vector keeps `a > 0` and its residual norm strictly
decreases. -/
def lsAccept (ops : MathOps) (ctx : SolveCtx) (params delta : Vec3)
    (residual : JSNum) (ls : Nat) : Bool :=
  gtB (lsCand params delta ls).1 (fin 0) &&
    ltB (Cat.norm3 ops (Cat.equations ops ctx (lsCand params delta ls))) residual

/-- Closed form of the source's line search: the first of the attempts
`0..8` satisfying the acceptance condition wins; otherwise attempt `9` is
taken exactly when it keeps `a > 0`, and the parameters stay unchanged when
it does not. -/
def lineSearchSpec (ops : MathOps) (ctx : SolveCtx) (params delta : Vec3)
    (residual : JSNum) : Vec3 :=
  match (List.range 9).find? (lsAccept ops ctx params delta residual) with
  | some ls => lsCand params delta ls
  | none =>
      if gtB (lsCand params delta 9).1 (fin 0) then lsCand params delta 9
      else params

/-- The line search exactly as claim C4 words it: halve for up to 10
attempts until the acceptance condition holds, and on exhaustion of the
budget accept the last computed update (attempt `9`) unconditionally. -/
def lineSearchClaim (ops : MathOps) (ctx : SolveCtx) (params delta : Vec3)
    (residual : JSNum) : Vec3 :=
  match (List.range 10).find? (lsAccept ops ctx params delta residual) with
  | some ls => lsCand params delta ls
  | none => lsCand params delta 9

/-- A second concrete instance for evaluating the fixed-point solver where
the claim fails: `sqrt` is the identity (so `m = 10000` is a feasible
`acosh` argument) and `acosh` is the constant `-2` (so the loop start
equals the sentinel previous value `-1` and the loop exits at once).  With
the real `Math` functions the same input follows the same control path and
likewise produces an all-finite result. -/
def opsC : MathOps :=
  { sqrt := fun q => q
    cosh := fun _ => 1
    sinh := fun q => q
    acosh := fun _ => -2
    log := fun _ => 0
    pi := 1 }

/-! ### Basic reduction lemmas for the number model -/

@[simp] lemma addJS_fin (a b : ℚ) : addJS (fin a) (fin b) = fin (a + b) := rfl

@[simp] lemma subJS_fin (a b : ℚ) : subJS (fin a) (fin b) = fin (a - b) := by
  simp [subJS, negJS, addJS, sub_eq_add_neg]

@[simp] lemma mulJS_fin (a b : ℚ) : mulJS (fin a) (fin b) = fin (a * b) := rfl

@[simp] lemma addJS_nan_left (x : JSNum) : addJS nan x = nan := by cases x <;> rfl

@[simp] lemma addJS_nan_right (x : JSNum) : addJS x nan = nan := by cases x <;> rfl

@[simp] lemma subJS_nan_left (x : JSNum) : subJS nan x = nan := by cases x <;> rfl

@[simp] lemma subJS_nan_right (x : JSNum) : subJS x nan = nan := by cases x <;> rfl

@[simp] lemma mulJS_nan_left (x : JSNum) : mulJS nan x = nan := by cases x <;> rfl

@[simp] lemma mulJS_nan_right (x : JSNum) : mulJS x nan = nan := by cases x <;> rfl

@[simp] lemma divJS_nan_left (x : JSNum) : divJS nan x = nan := by cases x <;> rfl

@[simp] lemma divJS_nan_right (x : JSNum) : divJS x nan = nan := by cases x <;> rfl

@[simp] lemma ltB_nan_left (x : JSNum) : ltB nan x = false := by cases x <;> rfl

@[simp] lemma ltB_nan_right (x : JSNum) : ltB x nan = false := by cases x <;> rfl

@[simp] lemma ltB_posInf_left (x : JSNum) : ltB posInf x = false := by cases x <;> rfl

@[simp] lemma ltB_fin (a b : ℚ) : ltB (fin a) (fin b) = decide (a < b) := rfl

@[simp] lemma leB_fin (a b : ℚ) : leB (fin a) (fin b) = decide (a ≤ b) := rfl

@[simp] lemma leB_nan_left (x : JSNum) : leB nan x = false := by cases x <;> rfl

@[simp] lemma leB_posInf_fin (t : ℚ) : leB posInf (fin t) = false := rfl

@[simp] lemma leB_negInf_fin (t : ℚ) : leB negInf (fin t) = true := rfl

@[simp] lemma sqrtJS_nan (ops : MathOps) : sqrtJS ops nan = nan := rfl

@[simp] lemma sqrtJS_posInf (ops : MathOps) : sqrtJS ops posInf = posInf := rfl

@[simp] lemma coshJS_nan (ops : MathOps) : coshJS ops nan = nan := rfl

@[simp] lemma sinhJS_nan (ops : MathOps) : sinhJS ops nan = nan := rfl

@[simp] lemma acoshJS_nan (ops : MathOps) : acoshJS ops nan = nan := rfl

@[simp] lemma logJS_nan (ops : MathOps) : logJS ops nan = nan := rfl

@[simp] lemma mulJS_posInf_posInf : mulJS posInf posInf = posInf := rfl

@[simp] lemma addJS_posInf_posInf : addJS posInf posInf = posInf := rfl

@[simp] lemma mulJS_posInf_zero : mulJS posInf (fin 0) = nan := by simp [mulJS]

@[simp] lemma absJS_nan : absJS nan = nan := rfl

@[simp] lemma absJS_posInf : absJS posInf = posInf := rfl

/-- Dividing any value by `Infinity` yields `0` or `NaN`. -/
lemma divJS_posInf_cases (z : JSNum) :
    divJS z posInf = fin 0 ∨ divJS z posInf = nan := by
  cases z <;> simp [divJS]

/-! ### The acceptance check forces a finite positive `a`

In `src/cat.tsx`, a candidate whose re-verification residual norm is below
any finite threshold necessarily has a finite, strictly positive first
component: for `a <= 0` (including `-Infinity`) the `equations` sentinel
makes the norm `Infinity`, and for `a = NaN` or `a = Infinity` the residual
contains `NaN`, so the strict `<` comparison is false. -/
lemma verify_pos (ops : MathOps) (ctx : SolveCtx) (r : Vec3) (t : ℚ)
    (h : ltB (Cat.norm3 ops (Cat.equations ops ctx r)) (fin t) = true) :
    ∃ q : ℚ, r.1 = fin q ∧ 0 < q := by
  obtain ⟨a, b, c⟩ := r
  cases a with
  | fin q =>
    rcases le_or_lt q 0 with hq | hq
    · exfalso
      have hle : leB (fin q) (fin 0) = true := by simp [hq]
      simp only [Cat.equations, hle, if_true] at h
      simp [Cat.norm3] at h
    · exact ⟨q, rfl, hq⟩
  | negInf =>
    exfalso
    simp only [Cat.equations, leB_negInf_fin, if_true] at h
    simp [Cat.norm3] at h
  | nan =>
    exfalso
    simp only [Cat.equations, leB_nan_left, Bool.false_eq_true, if_false] at h
    simp [Cat.norm3] at h
  | posInf =>
    exfalso
    simp only [Cat.equations, leB_posInf_fin, Bool.false_eq_true, if_false] at h
    rcases divJS_posInf_cases (subJS ctx.x1 b) with h1 | h1 <;>
      rcases divJS_posInf_cases (subJS ctx.x2 b) with h2 | h2 <;>
      simp [h1, h2, Cat.norm3, sinhJS] at h

/-- The driver loop of `src/cat.tsx` is exactly a first-success scan of the
spec-level per-guess attempt: the source's extra `result[0] > 0` test is
subsumed by the verification test (`verify_pos`). -/
lemma tryGuesses_eq_findSome (ops : MathOps) (ctx : SolveCtx) (l : List Vec3) :
    Cat.tryGuesses ops ctx l = l.findSome? (claimAttempt ops ctx) := by
  induction l with
  | nil => rfl
  | cons g gs ih =>
    rw [Cat.tryGuesses, List.findSome?_cons]
    cases hnr : Cat.newtonRaphson ops ctx g with
    | none => simpa [claimAttempt, hnr] using ih
    | some r =>
      by_cases hv : ltB (Cat.norm3 ops (Cat.equations ops ctx r)) (fin accTol) = true
      · obtain ⟨q, hq, hqpos⟩ := verify_pos ops ctx r accTol hv
        have hg : gtB r.1 (fin 0) = true := by
          rw [hq]; simp [gtB, hqpos]
        simp [claimAttempt, hnr, hv, hg]
      · simp only [Bool.not_eq_true] at hv
        simp [claimAttempt, hnr, hv, ih]

/-- C1: for every input passing validation, `solveCatenary` runs
Newton-Raphson on the generated initial guesses in order and returns the
parameters of the first guess whose converged result re-verifies with
residual norm below `1e-6` (`Except.ok` of the first `some` of
`claimAttempt`); if no guess converges and verifies, the scan is `none` and
the `null` no-solution result is returned, so a non-verified candidate is
never returned. -/
theorem c1_driver_first_verified (ops : MathOps)
    (pts : (JSNum × JSNum) × (JSNum × JSNum)) (s : JSNum)
    (h1 : leB s (fin 0) = false)
    (h2 : eqB pts.1.1 pts.2.1 = false)
    (h3 : ltB s (Cat.minArcJS ops pts) = false) :
    Cat.solveCatenary ops pts s =
      .ok ((Cat.initialGuesses ops (Cat.mkCtx pts s)).findSome?
        (claimAttempt ops (Cat.mkCtx pts s))) := by
  unfold Cat.solveCatenary
  simp [h1, h2, h3, tryGuesses_eq_findSome]

/-- Witness for C1 at a concrete input (both sides evaluate to the
parameters `(2, 1, -2)` found from the first guess). -/
theorem c1_driver_first_verified_witness :
    Cat.solveCatenary ops0 ((fin 0, fin 0), (fin 2, fin 0)) (fin 2) =
      .ok ((Cat.initialGuesses ops0
            (Cat.mkCtx ((fin 0, fin 0), (fin 2, fin 0)) (fin 2))).findSome?
        (claimAttempt ops0 (Cat.mkCtx ((fin 0, fin 0), (fin 2, fin 0)) (fin 2)))) :=
  c1_driver_first_verified ops0 ((fin 0, fin 0), (fin 2, fin 0)) (fin 2)
    (by decide) (by decide) (by decide)

/-- Every `some` result of the driver loop has a finite strictly positive
first component. -/
lemma tryGuesses_pos (ops : MathOps) (ctx : SolveCtx) :
    ∀ (l : List Vec3) (p : Vec3),
      Cat.tryGuesses ops ctx l = some p → ∃ q : ℚ, p.1 = fin q ∧ 0 < q := by
  intro l
  induction l with
  | nil => intro p hp; simp [Cat.tryGuesses] at hp
  | cons g gs ih =>
    intro p hp
    rw [Cat.tryGuesses] at hp
    cases hnr : Cat.newtonRaphson ops ctx g with
    | none => rw [hnr] at hp; exact ih p hp
    | some r =>
      rw [hnr] at hp
      have hp' : (if (gtB r.1 (fin 0) &&
          ltB (Cat.norm3 ops (Cat.equations ops ctx r)) (fin accTol)) = true
          then some r else Cat.tryGuesses ops ctx gs) = some p := hp
      by_cases hc : (gtB r.1 (fin 0) &&
          ltB (Cat.norm3 ops (Cat.equations ops ctx r)) (fin accTol)) = true
      · rw [if_pos hc] at hp'
        obtain ⟨-, hv⟩ := Bool.and_eq_true_iff.mp hc
        obtain ⟨q, hq, hqpos⟩ := verify_pos ops ctx r accTol hv
        cases hp'
        exact ⟨q, hq, hqpos⟩
      · rw [if_neg hc] at hp'
        exact ih p hp'

/-- After passing the three validation checks, `solveCatenary` hands the
guess list to the driver loop. -/
lemma solveCatenary_valid (ops : MathOps)
    (pts : (JSNum × JSNum) × (JSNum × JSNum)) (s : JSNum)
    (h1 : leB s (fin 0) = false)
    (h2 : eqB pts.1.1 pts.2.1 = false)
    (h3 : ltB s (Cat.minArcJS ops pts) = false) :
    Cat.solveCatenary ops pts s =
      .ok (Cat.tryGuesses ops (Cat.mkCtx pts s)
        (Cat.initialGuesses ops (Cat.mkCtx pts s))) := by
  unfold Cat.solveCatenary
  simp [h1, h2, h3]

/-- C6: whenever `solveCatenary` returns catenary parameters, the returned
`a` is a finite strictly positive number. -/
theorem c6_positive_a (ops : MathOps)
    (pts : (JSNum × JSNum) × (JSNum × JSNum)) (s : JSNum) (p : Vec3)
    (h : Cat.solveCatenary ops pts s = .ok (some p)) :
    ∃ q : ℚ, p.1 = fin q ∧ 0 < q := by
  cases h1 : leB s (fin 0) with
  | true => rw [Cat.solveCatenary, if_pos h1] at h; cases h
  | false =>
    cases h2 : eqB pts.1.1 pts.2.1 with
    | true =>
      rw [Cat.solveCatenary, if_neg (by simp [h1]), if_pos h2] at h; cases h
    | false =>
      cases h3 : ltB s (Cat.minArcJS ops pts) with
      | true =>
        rw [Cat.solveCatenary, if_neg (by simp [h1]), if_neg (by simp [h2]),
          if_pos h3] at h
        cases h
      | false =>
        rw [solveCatenary_valid ops pts s h1 h2 h3] at h
        exact tryGuesses_pos ops (Cat.mkCtx pts s) _ p (Except.ok.inj h)

/-- Witness for C6 at a concrete input. -/
theorem c6_positive_a_witness :
    ∃ q : ℚ, ((fin 2, fin 1, fin (-2)) : Vec3).1 = fin q ∧ 0 < q :=
  c6_positive_a ops0 ((fin 0, fin 0), (fin 2, fin 0)) (fin 2)
    (fin 2, fin 1, fin (-2)) (by decide)

/-- C7: the equation builder returns exactly the three residuals
`a*cosh((xi-b)/a) + c - yi` and `a*(sinh((x2-b)/a) - sinh((x1-b)/a)) - s`
whenever `a > 0` is possible (that is, the `a <= 0` test fails), and the
infeasible sentinel `[Infinity, Infinity, Infinity]` whenever `a <= 0`;
being a total function, it throws no exception. -/
theorem c7_equation_builder (ops : MathOps) (ctx : SolveCtx)
    (a b c : JSNum) :
    (leB a (fin 0) = true →
      Cat.equations ops ctx (a, b, c) = (posInf, posInf, posInf)) ∧
    (leB a (fin 0) = false →
      Cat.equations ops ctx (a, b, c) =
        (subJS (addJS (mulJS a (coshJS ops (divJS (subJS ctx.x1 b) a))) c) ctx.y1,
         subJS (addJS (mulJS a (coshJS ops (divJS (subJS ctx.x2 b) a))) c) ctx.y2,
         subJS (mulJS a (subJS (sinhJS ops (divJS (subJS ctx.x2 b) a))
           (sinhJS ops (divJS (subJS ctx.x1 b) a)))) ctx.s)) := by
  constructor <;> intro h <;> simp [Cat.equations, h]

/-- Witness for C7: both branches at concrete inputs. -/
theorem c7_equation_builder_witness :
    (Cat.equations ops0 ⟨fin 0, fin 0, fin 2, fin 0, fin 2⟩
        (fin (-1), fin 0, fin 0) = (posInf, posInf, posInf)) ∧
    (Cat.equations ops0 ⟨fin 0, fin 0, fin 2, fin 0, fin 2⟩
        (fin 2, fin 1, fin (-2)) =
      (subJS (addJS (mulJS (fin 2)
          (coshJS ops0 (divJS (subJS (fin 0) (fin 1)) (fin 2)))) (fin (-2))) (fin 0),
       subJS (addJS (mulJS (fin 2)
          (coshJS ops0 (divJS (subJS (fin 2) (fin 1)) (fin 2)))) (fin (-2))) (fin 0),
       subJS (mulJS (fin 2)
          (subJS (sinhJS ops0 (divJS (subJS (fin 2) (fin 1)) (fin 2)))
            (sinhJS ops0 (divJS (subJS (fin 0) (fin 1)) (fin 2))))) (fin 2))) :=
  ⟨(c7_equation_builder ops0 ⟨fin 0, fin 0, fin 2, fin 0, fin 2⟩
      (fin (-1)) (fin 0) (fin 0)).1 (by decide),
   (c7_equation_builder ops0 ⟨fin 0, fin 0, fin 2, fin 0, fin 2⟩
      (fin 2) (fin 1) (fin (-2))).2 (by decide)⟩

/-- C2 counterexample: for `s = -1` and the two points both at `x = 0`, the
code throws the invalid-arc-length error, yet the points share their
x-coordinate, so the biconditional "degenerate-input error iff equal
x-coordinates" fails: the checks are ordered, not independent. -/
theorem c2_counterexample :
    ¬ claimC2 ops0 ((fin 0, fin 0), (fin 0, fin 1)) (fin (-1)) := by decide

/-- C2 (amended): validation before any iteration is sequential. The
invalid-arc-length error occurs iff `s <= 0`; the degenerate-input error
occurs iff the first check passes and `x1 === x2`; the
arc-length-too-short error (reporting the computed minimum) occurs iff the
first two checks pass and `s < minArcLength`; otherwise the solve proceeds
to iteration and returns a non-thrown result. -/
theorem c2_validation_sequential (ops : MathOps)
    (pts : (JSNum × JSNum) × (JSNum × JSNum)) (s : JSNum) :
    (Cat.solveCatenary ops pts s = .error .invalidArcLength ↔
      leB s (fin 0) = true) ∧
    (Cat.solveCatenary ops pts s = .error .degenerateInput ↔
      (leB s (fin 0) = false ∧ eqB pts.1.1 pts.2.1 = true)) ∧
    (Cat.solveCatenary ops pts s = .error (.arcTooShort (Cat.minArcJS ops pts)) ↔
      (leB s (fin 0) = false ∧ eqB pts.1.1 pts.2.1 = false ∧
        ltB s (Cat.minArcJS ops pts) = true)) ∧
    ((∃ r, Cat.solveCatenary ops pts s = .ok r) ↔
      (leB s (fin 0) = false ∧ eqB pts.1.1 pts.2.1 = false ∧
        ltB s (Cat.minArcJS ops pts) = false)) := by
  unfold Cat.solveCatenary
  cases h1 : leB s (fin 0) <;> cases h2 : eqB pts.1.1 pts.2.1 <;>
    cases h3 : ltB s (Cat.minArcJS ops pts) <;> simp [h1, h2, h3]

/-- C8 counterexample: the generated guess list is not the claimed one —
the code's loop omits factor `1.0`, so the three guesses scaling `a` by
`1.0` with offset `b`-variants are missing (13 guesses instead of 16). -/
theorem c8_counterexample :
    Cat.initialGuesses ops0 (Cat.mkCtx ((fin 0, fin 0), (fin 2, fin 0)) (fin 2)) ≠
      claimGuesses ops0 (Cat.mkCtx ((fin 0, fin 0), (fin 2, fin 0)) (fin 2)) := by
  decide

/-- C8 (amended): the guess list is the symmetric guess
`[estimatedA, midX, midY - estimatedA]` followed, for each factor in
{0.5, 1.5, 2.0, 3.0} (factor 1.0 appears only in the symmetric guess and
receives no offset variants), by the three guesses with `b` at the
midpoint and at `midX ± dx * 0.1`; and the estimated `a` falls back to
`s / 4` exactly when the closed-form estimate is non-finite or
non-positive. -/
theorem c8_guess_list (ops : MathOps) (ctx : SolveCtx) :
    (Cat.initialGuesses ops ctx =
      (let midX := divJS (addJS ctx.x1 ctx.x2) (fin 2)
       let midY := divJS (addJS ctx.y1 ctx.y2) (fin 2)
       let dx := subJS ctx.x2 ctx.x1
       let eA := Cat.estimatedA ops ctx
       let bPlus := addJS midX (mulJS dx (fin (1 / 10)))
       let bMinus := subJS midX (mulJS dx (fin (1 / 10)))
       let aHalf := mulJS eA (fin ((1 : ℚ) / 2))
       let aThreeHalves := mulJS eA (fin ((3 : ℚ) / 2))
       let aTwo := mulJS eA (fin (2 : ℚ))
       let aThree := mulJS eA (fin (3 : ℚ))
       [(eA, midX, subJS midY eA),
        (aHalf, midX, subJS midY aHalf),
        (aHalf, bPlus, subJS midY aHalf),
        (aHalf, bMinus, subJS midY aHalf),
        (aThreeHalves, midX, subJS midY aThreeHalves),
        (aThreeHalves, bPlus, subJS midY aThreeHalves),
        (aThreeHalves, bMinus, subJS midY aThreeHalves),
        (aTwo, midX, subJS midY aTwo),
        (aTwo, bPlus, subJS midY aTwo),
        (aTwo, bMinus, subJS midY aTwo),
        (aThree, midX, subJS midY aThree),
        (aThree, bPlus, subJS midY aThree),
        (aThree, bMinus, subJS midY aThree)])) ∧
    Cat.estimatedA ops ctx =
      (if !isFiniteJS (Cat.estimatedA0 ops ctx) ||
          leB (Cat.estimatedA0 ops ctx) (fin 0)
       then divJS ctx.s (fin 4) else Cat.estimatedA0 ops ctx) := by
  exact ⟨rfl, rfl⟩

/-- C5 counterexample: `solveCatenary` of `src/cat.tsx` does not reorder
its points — swapping the two points changes the result (here the returned
`a` changes from `2` to `1/2`), so the claimed order-invariance of
`solveCatenary` itself fails. -/
theorem c5_counterexample :
    Cat.solveCatenary ops0 ((fin 0, fin 0), (fin 2, fin 0)) (fin 2) =
        .ok (some (fin 2, fin 1, fin (-2))) ∧
    Cat.solveCatenary ops0 ((fin 2, fin 0), (fin 0, fin 0)) (fin 2) =
        .ok (some (fin (1 / 2), fin 1, fin (-1 / 2))) ∧
    Cat.solveCatenary ops0 ((fin 0, fin 0), (fin 2, fin 0)) (fin 2) ≠
      Cat.solveCatenary ops0 ((fin 2, fin 0), (fin 0, fin 0)) (fin 2) :=
  ⟨by decide, by decide, by decide⟩

/-- C5 (amended): the ascending-x ordering lives in the caller, not in the
core solver: the app file sorts the points with `sortX` before solving, and
for points with distinct finite x-coordinates `sortX` gives the same
ordered pair for both argument orders, so the sorted solve pipeline is
order-invariant. -/
theorem c5_sortX_invariant (ops : MathOps) (s : JSNum) (px py qx qy : ℚ)
    (hne : px ≠ qx) :
    App.sortX ((fin px, fin py), (fin qx, fin qy)) =
        App.sortX ((fin qx, fin qy), (fin px, fin py)) ∧
    App.solveCatenary ops (App.sortX ((fin px, fin py), (fin qx, fin qy))) s =
      App.solveCatenary ops (App.sortX ((fin qx, fin qy), (fin px, fin py))) s := by
  have hsort : App.sortX ((fin px, fin py), (fin qx, fin qy)) =
      App.sortX ((fin qx, fin qy), (fin px, fin py)) := by
    rcases lt_trichotomy px qx with hlt | heq | hgt
    · have h1 : ¬ (0 < px - qx) := by linarith
      have h2 : 0 < qx - px := by linarith
      simp [App.sortX, gtB, h1, h2]
    · exact absurd heq hne
    · have h1 : 0 < px - qx := by linarith
      have h2 : ¬ (0 < qx - px) := by linarith
      simp [App.sortX, gtB, h1, h2]
  exact ⟨hsort, by rw [hsort]⟩

/-- Witness for C5 (amended) at a concrete input. -/
theorem c5_sortX_invariant_witness :
    App.sortX ((fin 0, fin 0), (fin 1, fin 1)) =
        App.sortX ((fin 1, fin 1), (fin 0, fin 0)) ∧
    App.solveCatenary ops0 (App.sortX ((fin 0, fin 0), (fin 1, fin 1))) (fin 1) =
      App.solveCatenary ops0 (App.sortX ((fin 1, fin 1), (fin 0, fin 0))) (fin 1) :=
  c5_sortX_invariant ops0 (fin 1) 0 0 1 1 (by norm_num)

/-- Unrolling of the line-search loop against its closed form. -/
lemma lsGo_spec (ops : MathOps) (ctx : SolveCtx) (p d : Vec3) (r : JSNum) :
    ∀ (fuel ls : Nat), fuel + ls = 10 → 1 ≤ fuel →
      Cat.lsGo ops ctx p d r fuel ls (fin ((1 / 2 : ℚ) ^ ls)) =
        match (List.range' ls (9 - ls)).find? (lsAccept ops ctx p d r) with
        | some l => lsCand p d l
        | none =>
            if gtB (lsCand p d 9).1 (fin 0) then lsCand p d 9 else p := by
  intro fuel
  induction fuel with
  | zero => intro ls _ hf; omega
  | succ f ih =>
    intro ls hsum _
    by_cases h9 : ls = 9
    · subst h9
      have hf0 : f = 0 := by omega
      subst hf0
      simp only [Cat.lsGo, Nat.sub_self, List.range'_zero, List.find?_nil]
      have hbeq : ((9 : Nat) == 9) = true := rfl
      rw [hbeq, Bool.or_true, Bool.and_true]
      rfl
    · have hls : ls < 9 := by omega
      have hbeq : ((ls : Nat) == 9) = false := by
        simp [Nat.beq_eq_true_eq]
        omega
      have hrange : (9 : Nat) - ls = (9 - (ls + 1)) + 1 := by omega
      rw [Cat.lsGo]
      rw [hbeq, Bool.or_false]
      have hstep : mulJS (fin ((1 / 2 : ℚ) ^ ls)) (fin (1 / 2)) =
          fin ((1 / 2 : ℚ) ^ (ls + 1)) := by
        rw [mulJS_fin, pow_succ]
      rw [hrange, List.range'_succ]
      by_cases hacc : lsAccept ops ctx p d r ls = true
      · rw [List.find?_cons_of_pos _ hacc]
        have : (gtB (Cat.stepVec p (fin ((1 / 2 : ℚ) ^ ls)) d).1 (fin 0) &&
            ltB (Cat.norm3 ops (Cat.equations ops ctx
              (Cat.stepVec p (fin ((1 / 2 : ℚ) ^ ls)) d))) r) = true := hacc
        rw [this, if_pos rfl]
        rfl
      · rw [List.find?_cons_of_neg _ hacc]
        have hacc' : (gtB (Cat.stepVec p (fin ((1 / 2 : ℚ) ^ ls)) d).1 (fin 0) &&
            ltB (Cat.norm3 ops (Cat.equations ops ctx
              (Cat.stepVec p (fin ((1 / 2 : ℚ) ^ ls)) d))) r) = false := by
          exact Bool.not_eq_true _ |>.mp hacc
        rw [hacc']
        simp only [Bool.false_eq_true, if_false]
        rw [hstep]
        have := ih (ls + 1) (by omega) (by omega)
        rw [this]

/-- C4 (amended): in every Newton-Raphson iteration the line search starts
at step size `1.0` and halves it for up to 10 attempts until the updated
parameter vector keeps `a > 0` and strictly decreases the residual norm;
when the budget is exhausted, the 10th candidate is accepted only if it
keeps `a > 0` — if it does not, the parameters are returned unchanged (not
accepted unconditionally) and the outer iteration continues from the old
point. -/
theorem c4_line_search (ops : MathOps) (ctx : SolveCtx) (params delta : Vec3)
    (residual : JSNum) :
    Cat.lineSearch ops ctx params delta residual =
      lineSearchSpec ops ctx params delta residual := by
  have h := lsGo_spec ops ctx params delta residual 10 0 rfl (by norm_num)
  have h0 : fin ((1 / 2 : ℚ) ^ (0 : Nat)) = fin 1 := by norm_num
  rw [h0] at h
  rw [Cat.lineSearch, h, lineSearchSpec, List.range_eq_range']

/-- C4 counterexample: with current `a = 1` and a Newton step whose `a`
component is `-1024`, every one of the 10 candidates has `a <= 0`; the
source's line search returns the parameters unchanged, while the claim's
"accept the last update unconditionally" would produce `a = -1`. -/
theorem c4_counterexample :
    Cat.lineSearch ops0 ⟨fin 0, fin 0, fin 0, fin 0, fin 0⟩
        (fin 1, fin 0, fin 0) (fin (-1024), fin 0, fin 0) (fin 1) =
        (fin 1, fin 0, fin 0) ∧
    lineSearchClaim ops0 ⟨fin 0, fin 0, fin 0, fin 0, fin 0⟩
        (fin 1, fin 0, fin 0) (fin (-1024), fin 0, fin 0) (fin 1) =
        (fin (-1), fin 0, fin 0) ∧
    Cat.lineSearch ops0 ⟨fin 0, fin 0, fin 0, fin 0, fin 0⟩
        (fin 1, fin 0, fin 0) (fin (-1024), fin 0, fin 0) (fin 1) ≠
      lineSearchClaim ops0 ⟨fin 0, fin 0, fin 0, fin 0, fin 0⟩
        (fin 1, fin 0, fin 0) (fin (-1024), fin 0, fin 0) (fin 1) :=
  ⟨by decide, by decide, by decide⟩

/-- C3 (the code at the failing input): the linear solver contains no
zero-pivot check and cannot throw; on the all-zero, maximally singular
system it divides by the zero pivots and returns an ordinary vector of
`NaN` junk instead of failing with a singular-system signal, so the
driver's `catch` branch never runs. -/
theorem c3_singular_returns_vector :
    Cat.solveLinearSystem
      ((fin 0, fin 0, fin 0), (fin 0, fin 0, fin 0), (fin 0, fin 0, fin 0))
      (fin 1, fin 1, fin 1) = (nan, nan, nan) := by decide

/-- Division of a finite value by a nonzero finite value. -/
lemma divJS_fin_of_ne (a b : ℚ) (hb : b ≠ 0) :
    divJS (fin a) (fin b) = fin (a / b) := by
  simp [divJS, hb]

/-- The first component (the returned `a`) of the app-file solver, written
out: `h / (2 * x)` with `x` the fixed-point iterate started from
`acosh(m) + 1`. -/
lemma appSolve_a (ops : MathOps) (pts : (JSNum × JSNum) × (JSNum × JSNum))
    (s : JSNum) :
    (App.solveCatenary ops pts s).1 =
      divJS (subJS pts.2.1 pts.1.1)
        (mulJS (fin 2)
          (App.fpLoop ops
            (divJS (sqrtJS ops (subJS (mulJS s s)
                (mulJS (subJS pts.2.2 pts.1.2) (subJS pts.2.2 pts.1.2))))
              (subJS pts.2.1 pts.1.1))
            100
            (addJS (acoshJS ops (divJS (sqrtJS ops (subJS (mulJS s s)
                (mulJS (subJS pts.2.2 pts.1.2) (subJS pts.2.2 pts.1.2))))
              (subJS pts.2.1 pts.1.1))) (fin 1))
            (fin (-1)))) := rfl

/-- The fixed-point loop started at `NaN` exits immediately with `NaN`
(the JavaScript loop guard `Math.abs(NaN - prev) > 1e-6` is false). -/
lemma fpLoop_nan (ops : MathOps) (m prev : JSNum) :
    ∀ fuel, App.fpLoop ops m fuel nan prev = nan := by
  intro fuel
  cases fuel with
  | zero => rfl
  | succ f => simp [App.fpLoop, gtB]

/-- The fixed-point loop for `m = Infinity` started at `Infinity` performs
one update (producing `Infinity - NaN = NaN`) and then exits with `NaN`. -/
lemma fpLoop_posInf (ops : MathOps) (c : ℚ) :
    App.fpLoop ops posInf 100 posInf (fin c) = nan := by
  rw [show (100 : Nat) = 99 + 1 from rfl]
  rw [App.fpLoop]
  have hcond : gtB (absJS (subJS posInf (fin c))) (fin tooSmall) = true := rfl
  rw [if_pos hcond]
  have hx : subJS posInf
      (divJS (subJS (sinhJS ops posInf) (mulJS posInf posInf))
        (subJS (coshJS ops posInf) posInf)) = nan := rfl
  rw [hx]
  exact fpLoop_nan ops posInf posInf 99

/-- C10 (amended): the app-file `solveCatenary` performs no input
validation and, being total, never throws: it returns a parameter object
for every input.  For every finite input that is infeasible with
`x1 = x2`, or `s^2 < (x2-x1)^2 + (y2-y1)^2` (equivalently `s` below the
chord distance when `s >= 0`), or `s^2 <= (y2-y1)^2`, the returned `a` is
`NaN`.  (For a negative `s` whose square reaches the squared chord the
result can be an ordinary finite object — the counterexample.)  The three
hypotheses on `ops.sqrt` are facts of the real square root. -/
theorem c10_infeasible_nan (ops : MathOps)
    (hs0 : ops.sqrt 0 = 0)
    (hsnn : ∀ q : ℚ, 0 ≤ q → 0 ≤ ops.sqrt q)
    (hslt : ∀ u w : ℚ, 0 ≤ u → 0 < w → u < w ^ 2 → ops.sqrt u < w)
    (x1 y1 x2 y2 s : ℚ)
    (hinf : x1 = x2 ∨ s ^ 2 < (x2 - x1) ^ 2 + (y2 - y1) ^ 2 ∨
      s ^ 2 ≤ (y2 - y1) ^ 2) :
    (App.solveCatenary ops ((fin x1, fin y1), (fin x2, fin y2)) (fin s)).1 =
      nan := by
  rw [appSolve_a]
  simp only [subJS_fin, mulJS_fin]
  set d : ℚ := s * s - (y2 - y1) * (y2 - y1) with hd
  set h : ℚ := x2 - x1 with hh
  have key : ∀ m : JSNum, (acoshJS ops m = nan ∨ m = posInf) →
      divJS (fin h) (mulJS (fin 2)
        (App.fpLoop ops m 100 (addJS (acoshJS ops m) (fin 1)) (fin (-1)))) =
        nan := by
    intro m hm
    rcases hm with hmn | hmp
    · rw [hmn, addJS_nan_left, fpLoop_nan, mulJS_nan_right, divJS_nan_right]
    · subst hmp
      rw [show acoshJS ops posInf = posInf from rfl]
      rw [show addJS posInf (fin 1) = posInf from rfl]
      rw [fpLoop_posInf, mulJS_nan_right, divJS_nan_right]
  apply key
  rcases lt_trichotomy d 0 with hdlt | hdeq | hdgt
  · left
    rw [show sqrtJS ops (fin d) = nan from by simp [sqrtJS, hdlt],
      divJS_nan_left, acoshJS_nan]
  · rw [hdeq]
    rw [show sqrtJS ops (fin 0) = fin 0 from by simp [sqrtJS, hs0]]
    by_cases hh0 : h = 0
    · left
      rw [hh0]
      rw [show divJS (fin 0) (fin 0) = nan from by simp [divJS], acoshJS_nan]
    · left
      rw [divJS_fin_of_ne _ _ hh0, zero_div]
      simp [acoshJS]
  · have hq0 : 0 ≤ ops.sqrt d := hsnn d hdgt.le
    rw [show sqrtJS ops (fin d) = fin (ops.sqrt d) from by
      simp [sqrtJS, not_lt.mpr hdgt.le]]
    by_cases hh0 : h = 0
    · rcases eq_or_lt_of_le hq0 with hq | hq
      · left
        rw [hh0, ← hq]
        rw [show divJS (fin 0) (fin 0) = nan from by simp [divJS], acoshJS_nan]
      · right
        rw [hh0]
        simp [divJS, hq.ne', hq]
    · left
      have hdh : d < h ^ 2 := by
        rcases hinf with hx | hlt | hle
        · exact absurd (by rw [hh, hx, sub_self]) hh0
        · rw [hh] at hlt
          rw [hd, hh]
          nlinarith [hlt]
        · exfalso
          have hle' : d ≤ 0 := by rw [hd]; nlinarith [hle]
          linarith
      rw [divJS_fin_of_ne _ _ hh0]
      have hlt1 : ops.sqrt d / h < 1 := by
        rcases lt_or_gt_of_ne hh0 with hneg | hpos
        · have hnp : ops.sqrt d / h ≤ 0 :=
            div_nonpos_iff.mpr (Or.inl ⟨hq0, hneg.le⟩)
          linarith
        · rw [div_lt_one hpos]
          exact hslt d h hdgt.le hpos hdh
      simp [acoshJS, hlt1]

/-- Witness for C10 (amended) at a concrete infeasible input
(`x1 = x2 = 0`). -/
theorem c10_infeasible_nan_witness :
    (App.solveCatenary ops0 ((fin 0, fin 0), (fin 0, fin 1)) (fin 1)).1 = nan :=
  c10_infeasible_nan ops0 rfl (fun _ _ => le_refl 0) (fun _ _ _ hw _ => hw)
    0 0 0 1 1 (Or.inl rfl)

/-- C10 counterexample: the input `(0,0)`, `(1,0)` with `s = -100` is
infeasible in the claim's sense — the arc length is (far) less than the
chord distance `1` — yet the fixed-point solver returns a parameter object
whose `a`, `b` and `c` are all ordinary finite numbers, not `NaN` or
infinite. -/
theorem c10_counterexample :
    ((-100 : ℚ) < 1 ∧ (1 : ℚ) ^ 2 = (1 - 0) ^ 2 + (0 - 0) ^ 2) ∧
    isFiniteJS
      (App.solveCatenary opsC ((fin 0, fin 0), (fin 1, fin 0)) (fin (-100))).1
      = true ∧
    isFiniteJS
      (App.solveCatenary opsC ((fin 0, fin 0), (fin 1, fin 0)) (fin (-100))).2.1
      = true ∧
    isFiniteJS
      (App.solveCatenary opsC ((fin 0, fin 0), (fin 1, fin 0)) (fin (-100))).2.2
      = true :=
  ⟨⟨by norm_num, by norm_num⟩, by decide, by decide, by decide⟩
